import Mathlib

/-!
Verification of the GoDaddy-to-Route53 DNS migration script
(`dns_migration.py`).  The script's pure logic is shallowly embedded:
DNS records become a structure, the per-record transformation loop of
`Domain.r53_create_records` becomes `stepRecord`/`processRecords`, the
aggregation dictionary becomes `insertRec`/`aggregate`, the migration
decision `Domain.requires_zone_migration` becomes a Bool-valued
function, the throttling logic of `GoDaddyClient._wait_until` becomes a
timestamp transition, the cached `records` property becomes an explicit
state transition with a call counter, the Route 53 zone lookup becomes
`r53_zone_id`, and the `__main__` per-domain loop becomes `runBatch`.
-/

/-- One DNS resource record as returned by the GoDaddy API
(`record['name']`, `record['type']`, `record['data']`,
`record['ttl']`, `record['priority']`, the latter read only for MX). -/
structure SrcRec where
  name : String
  rtype : String
  data : String
  ttl : Nat
  priority : Nat
deriving Repr, DecidableEq

/-- Helper for `pySplit`: walk the characters, accumulating the
current (reversed) word; whitespace closes the word. -/
def pySplitAux : List Char → List Char → List String
  | [], cur => if cur.isEmpty then [] else [String.mk cur.reverse]
  | c :: cs, cur =>
    if c.isWhitespace then
      (if cur.isEmpty then pySplitAux cs [] else String.mk cur.reverse :: pySplitAux cs [])
    else pySplitAux cs (c :: cur)

/-- Python's `str.split()` with no argument: split on runs of
whitespace and drop the empty pieces. -/
def pySplit (s : String) : List String :=
  pySplitAux s.data []

/-- The fixed IP that replaces the `WebsiteBuilder Site` placeholder
(line 251 of the source). -/
def websiteBuilderIP : String := "76.223.105.230"

/-- One aggregated Route 53 resource record set
(the `aggregated_records[key]` value built at lines 276-284; the
`ResourceRecords` list of `{'Value': data}` dicts is kept as the plain
list of value strings). -/
structure Entry where
  eName : String
  eType : String
  eTTL : Nat
  eValues : List String
deriving Repr, DecidableEq

/-- The body of the `for record in self.records` loop of
`Domain.r53_create_records` (lines 237-271), for one record: the
filters and in-place rewrites applied in source order.  Returns the
record as it is left in the (mutated) list together with `true` when
the record reaches the aggregation step at the bottom of the loop and
`false` when a `continue` skipped it. -/
def stepRecord (dn : String) (r : SrcRec) : SrcRec × Bool :=
  if r.rtype = "SOA" ∨ r.rtype = "NS" then (r, false)
  else if r.rtype = "A" ∧ r.data = "Parked" then (r, false)
  else if r.rtype = "CNAME" ∧ r.name = "_domainconnect" then (r, false)
  else
    let data1 := if r.rtype = "CNAME" ∧ r.data = "@" then dn else r.data
    let data2 := if r.rtype = "A" ∧ data1 = "WebsiteBuilder Site" then websiteBuilderIP else data1
    let name1 := if r.name = "@" then dn else r.name ++ "." ++ dn
    let data3 := if r.rtype = "MX" then toString r.priority ++ " " ++ data2 else data2
    let data4 := if r.rtype = "TXT" then "\"" ++ data3 ++ "\"" else data3
    let r' : SrcRec := { r with name := name1, data := data4 }
    if r.rtype = "SRV" ∧ (pySplit data4).length ≠ 4 then (r', false)
    else (r', true)

/-- One step of the `aggregated_records` dictionary update
(lines 274-284): the first entry whose (Name, Type) key matches the
record gets the record's data appended to its value list; when no
entry matches, a new entry with the record's name, type, ttl and a
singleton value list is appended at the end (Python dicts preserve
insertion order). -/
def insertRec (acc : List Entry) (r : SrcRec) : List Entry :=
  match acc with
  | [] => [⟨r.name, r.rtype, r.ttl, [r.data]⟩]
  | e :: rest =>
    if e.eName = r.name ∧ e.eType = r.rtype then
      { e with eValues := e.eValues ++ [r.data] } :: rest
    else
      e :: insertRec rest r

/-- The full `aggregated_records` dictionary built from the surviving
records, read out in insertion order (`aggregated_records.values()`). -/
def aggregate (rs : List SrcRec) : List Entry :=
  rs.foldl insertRec []

/-- The whole record loop of `Domain.r53_create_records`: returns the
record list as the loop leaves it (the dicts are mutated in place, so
`self._records` afterwards holds the rewritten records) paired with
the list of records that reached the aggregation step, in order. -/
def processRecords (dn : String) : List SrcRec → List SrcRec × List SrcRec
  | [] => ([], [])
  | r :: rest =>
    let p := stepRecord dn r
    let q := processRecords dn rest
    (p.1 :: q.1, if p.2 then p.1 :: q.2 else q.2)

/-- `Domain.r53_create_records` (lines 228-305) as a pure function of
the domain name and its cached record list: first component is the
record list after the loop's in-place mutation, second component is
the aggregated change set handed to `change_resource_record_sets`
(each entry is wrapped in an UPSERT action; the wrapper adds no
information, so the entry list stands for the change batch). -/
def r53_create_records (dn : String) (recs : List SrcRec) : List SrcRec × List Entry :=
  let q := processRecords dn recs
  (q.1, aggregate q.2)

/-- `Domain.gd_dns_exists` (lines 122-132): `len(self.records) > 0`. -/
def gd_dns_exists (recs : List SrcRec) : Bool :=
  decide (0 < recs.length)

/-- The condition of line 146: a record with name `@`, type `A` and
data exactly `Parked`. -/
def parkedRecord (r : SrcRec) : Bool :=
  decide (r.name = "@" ∧ r.rtype = "A" ∧ r.data = "Parked")

/-- `Domain.requires_zone_migration` (lines 135-157) as a function of
the fetched record list: early `False` when no records, then the
`domain_parked` flag is computed by the loop at lines 145-147, then
the two `return True` paths at lines 149-155, else `False`. -/
def requires_zone_migration (recs : List SrcRec) : Bool :=
  if ¬ (gd_dns_exists recs = true) then false
  else
    let domain_parked := recs.foldl (fun acc r => if parkedRecord r = true then true else acc) false
    if ¬ (domain_parked = true) then true
    else if recs.length ≤ 6 then true
    else false

/-- `Domain.has_mx_records` (lines 221-226): the loop returns `True`
on the first MX record, else `False`. -/
def has_mx_records (recs : List SrcRec) : Bool :=
  recs.any (fun r => decide (r.rtype = "MX"))

/-- `GoDaddyClient._wait_until` (lines 52-58) over integer
millisecond timestamps: given the stored `last_call_time` and the
current time at entry, return the time at which the wrapped call
starts and the new stored `last_call_time`.  When the elapsed time is
below `wait_time` the flow sleeps for the remainder (the call starts
after the sleep) and `last_call_time` is set to the wake-up time;
otherwise the call starts immediately and `last_call_time` is NOT
updated (the assignment at line 58 sits inside the `if`). -/
def wait_until (w last now : Nat) : Nat × Nat :=
  if now - last < w then
    let start := now + (w - (now - last))
    (start, start)
  else
    (now, last)

/-- A sequence of gateway calls through one `GoDaddyClient`: `last`
is the stored `last_call_time` (initialized to the construction time),
`now` is the reference point of the next arrival, and each delay `d`
makes the next call arrive `d` milliseconds after the previous call's
start (zero-latency calls arrive with delay 0).  Returns the list of
call start times. -/
def runCalls (w last now : Nat) : List Nat → List Nat
  | [] => []
  | d :: ds =>
    let arrive := now + d
    let p := wait_until w last arrive
    p.1 :: runCalls w p.2 p.1 ds

/-- Python truthiness test `not self._records` of line 91: `None` and
the empty list are falsy. -/
def pyFalsy : Option (List SrcRec) → Bool
  | none => true
  | some l => l.isEmpty

/-- The `Domain.records` property (lines 88-95) as a state transition:
`fetch` is the GoDaddy backend indexed by how many calls were made so
far (`Except.error` stands for a raised `BadResponse`), `st` is the
cached `self._records` (`none` = Python `None`), `calls` counts
backend invocations.  Returns (value returned, new cache, new call
count). -/
def records_read (fetch : Nat → Except Unit (List SrcRec))
    (st : Option (List SrcRec)) (calls : Nat) :
    List SrcRec × Option (List SrcRec) × Nat :=
  if pyFalsy st then
    match fetch calls with
    | Except.ok rs => (rs, some rs, calls + 1)
    | Except.error _ => ([], some [], calls + 1)
  else
    (st.getD [], st, calls)

/-- The two exception classes named at line 113.  Python evaluates
`except InvalidInput or InvalidDomainName:` as `except InvalidInput:`,
so only the first is caught. -/
inductive R53LookupError where
  | invalidInput
  | invalidDomainName
deriving Repr, DecidableEq

/-- One hosted zone as returned by `list_hosted_zones_by_name`
(`zone['Name']`, `zone['Id']`). -/
structure HostedZone where
  zName : String
  zId : String
deriving Repr, DecidableEq

/-- The zone-matching loop at lines 108-111: the first zone whose
`Name` equals the domain name with a trailing dot. -/
def findZoneId (name : String) : List HostedZone → Option String
  | [] => none
  | z :: rest => if z.zName = name ++ "." then some z.zId else findZoneId name rest

/-- Python truthiness test `if self._r53_zone_id:` of line 103. -/
def cachedTruthy : Option String → Bool
  | none => false
  | some s => ¬ s.isEmpty

/-- The `Domain.r53_zone_id` property (lines 97-116): return the
cached id when truthy; otherwise consult the backend response.  On a
successful listing the first exactly-matching zone's id is memoized
and returned (line 116 returns `self._r53_zone_id`, so no match
returns the old cache).  An `InvalidInput` error is caught (line 113)
and the old cache is returned; any other exception — in particular
`InvalidDomainName`, dead in the `except A or B` expression —
propagates. -/
def r53_zone_id (name : String) (cached : Option String)
    (resp : Except R53LookupError (List HostedZone)) :
    Except R53LookupError (Option String) :=
  if cachedTruthy cached then Except.ok cached
  else
    match resp with
    | Except.ok zones =>
      Except.ok (match findZoneId name zones with
                 | some zid => some zid
                 | none => cached)
    | Except.error R53LookupError.invalidInput => Except.ok cached
    | Except.error e => Except.error e

/-- One input domain of the `__main__` batch: its name, its fetched
GoDaddy record list, and whether the `change_resource_record_sets`
call for it raises (the only step of the loop body not wrapped in a
try/except). -/
structure DomIn where
  name : String
  recs : List SrcRec
  applyFails : Bool
deriving Repr, DecidableEq

/-- One output row of the report (`Has GoDaddy DNS`,
`Requires DNS Migration`, `AWS DNS Records Created`,
`Supports Email`). -/
structure OutRow where
  hasGdDns : String
  requiresMig : String
  recordsCreated : String
  supportsEmail : String
deriving Repr, DecidableEq

/-- The body of the `for domain in domains` loop (lines 337-357) for
one domain, keeping only the control flow that decides between a
completed row and an uncaught exception: when the domain requires
migration the record-apply call runs and may raise (`Except.error`);
every other step of the body is wrapped in try/except inside the
`Domain` methods and cannot abort the loop. -/
def processDomain (d : DomIn) : Except String OutRow :=
  let hasDns := if gd_dns_exists d.recs = true then "Yes" else "No"
  let email := if has_mx_records d.recs = true then "Yes" else "No"
  if requires_zone_migration d.recs = true then
    if d.applyFails = true then Except.error d.name
    else Except.ok ⟨hasDns, "Yes", "Yes", email⟩
  else
    Except.ok ⟨hasDns, "No", "No", email⟩

/-- The `__main__` processing loop followed by the `to_csv` call
(lines 337-359): processes domains in order; an uncaught exception
terminates the loop at once, `domains_data.to_csv` never runs and no
output file is produced (`none`).  Returns the list of domain names
that were attempted and the written rows (when the run completed). -/
def runBatch : List DomIn → List String × Option (List OutRow)
  | [] => ([], some [])
  | d :: rest =>
    match processDomain d with
    | Except.error _ => ([d.name], none)
    | Except.ok row =>
      let q := runBatch rest
      (d.name :: q.1, q.2.map (fun rs => row :: rs))

/-! Proof-layer abbreviations; each is proved equal to the
corresponding piece of the source embedding before use. -/

/-- The early-`continue` filters of lines 238-245. -/
def dropEarly (r : SrcRec) : Prop :=
  r.rtype = "SOA" ∨ r.rtype = "NS"
    ∨ (r.rtype = "A" ∧ r.data = "Parked")
    ∨ (r.rtype = "CNAME" ∧ r.name = "_domainconnect")

instance (r : SrcRec) : Decidable (dropEarly r) := by
  unfold dropEarly; infer_instance

/-- The data rewrite chain of lines 247-265 for a record that passed
the early filters. -/
def dataRw (dn : String) (r : SrcRec) : String :=
  let data1 := if r.rtype = "CNAME" ∧ r.data = "@" then dn else r.data
  let data2 := if r.rtype = "A" ∧ data1 = "WebsiteBuilder Site" then websiteBuilderIP else data1
  let data3 := if r.rtype = "MX" then toString r.priority ++ " " ++ data2 else data2
  if r.rtype = "TXT" then "\"" ++ data3 ++ "\"" else data3

/-- The rewritten record left in the list by one loop iteration that
passed the early filters. -/
def mutRec (dn : String) (r : SrcRec) : SrcRec :=
  { r with
    name := if r.name = "@" then dn else r.name ++ "." ++ dn,
    data := dataRw dn r }

/-- The entries of a change set carrying a given (Name, Type) key. -/
def keyFilter (es : List Entry) (nm ty : String) : List Entry :=
  es.filter (fun e => decide (e.eName = nm ∧ e.eType = ty))

instance : Inhabited Entry := ⟨⟨"", "", 0, []⟩⟩

/-- The records of a list carrying a given (name, type) key. -/
def keyed (rs : List SrcRec) (nm ty : String) : List SrcRec :=
  rs.filter (fun r => decide (r.name = nm ∧ r.rtype = ty))

/-- Total number of values across a change set. -/
def totalValues (es : List Entry) : Nat :=
  (es.map (fun e => e.eValues.length)).sum

/-! String facts used to separate the rewritten names. -/

lemma str_dot_ne_at (x dn : String) : x ++ "." ++ dn ≠ "@" := by
  intro h
  have hl := congrArg String.length h
  simp only [String.length_append] at hl
  have h1 : ".".length = 1 := rfl
  have h2 : "@".length = 1 := rfl
  rw [h1, h2] at hl
  have hx : x = "" := String.ext (List.length_eq_zero.mp (by omega : x.length = 0))
  have hd : dn = "" := String.ext (List.length_eq_zero.mp (by omega : dn.length = 0))
  subst hx; subst hd
  exact absurd h (by decide)

lemma str_ne_self_dot (s dn : String) : s ≠ s ++ "." ++ dn := by
  intro h
  have hl := congrArg String.length h
  simp only [String.length_append] at hl
  have h1 : ".".length = 1 := rfl
  rw [h1] at hl
  omega

/-! Structure of one transformation step. -/

lemma stepRecord_dropEarly (dn : String) (r : SrcRec) (h : dropEarly r) :
    stepRecord dn r = (r, false) := by
  unfold stepRecord
  rcases h with h | h | h | h
  · rw [if_pos (Or.inl h)]
  · rw [if_pos (Or.inr h)]
  · rw [if_neg, if_pos h]
    intro hc
    rcases hc with hc | hc <;> rw [h.1] at hc <;> exact absurd hc (by decide)
  · rw [if_neg, if_neg, if_pos h]
    · intro hc
      rw [h.1] at hc
      exact absurd hc.1 (by decide)
    · intro hc
      rcases hc with hc | hc <;> rw [h.1] at hc <;> exact absurd hc (by decide)

lemma if_emit {α : Type} (c : Prop) [Decidable c] (x : α) :
    (if c then (x, false) else (x, true)) = (x, ! decide c) := by
  by_cases hc : c
  · rw [if_pos hc, decide_eq_true hc]
    rfl
  · rw [if_neg hc, decide_eq_false hc]
    rfl

lemma stepRecord_not_dropEarly (dn : String) (r : SrcRec) (h : ¬ dropEarly r) :
    stepRecord dn r =
      (mutRec dn r, ! decide (r.rtype = "SRV" ∧ (pySplit (dataRw dn r)).length ≠ 4)) := by
  have hA : ¬ (r.rtype = "SOA" ∨ r.rtype = "NS") :=
    fun hc => h (hc.elim Or.inl (fun hb => Or.inr (Or.inl hb)))
  have hB : ¬ (r.rtype = "A" ∧ r.data = "Parked") :=
    fun hc => h (Or.inr (Or.inr (Or.inl hc)))
  have hC : ¬ (r.rtype = "CNAME" ∧ r.name = "_domainconnect") :=
    fun hc => h (Or.inr (Or.inr (Or.inr hc)))
  unfold stepRecord
  rw [if_neg hA, if_neg hB, if_neg hC]
  simp only [mutRec, dataRw]
  exact if_emit _ _

/-! Evaluation of the data rewrite chain by record type. -/

lemma dataRw_srv (dn : String) (r : SrcRec) (h : r.rtype = "SRV") :
    dataRw dn r = r.data := by
  unfold dataRw
  rw [h]
  simp

lemma dataRw_cname (dn : String) (r : SrcRec) (h : r.rtype = "CNAME") :
    dataRw dn r = if r.data = "@" then dn else r.data := by
  unfold dataRw
  rw [h]
  simp

lemma dataRw_a (dn : String) (r : SrcRec) (h : r.rtype = "A") :
    dataRw dn r = if r.data = "WebsiteBuilder Site" then websiteBuilderIP else r.data := by
  unfold dataRw
  rw [h]
  simp

lemma dataRw_mx (dn : String) (r : SrcRec) (h : r.rtype = "MX") :
    dataRw dn r = toString r.priority ++ " " ++ r.data := by
  unfold dataRw
  rw [h]
  simp

lemma dataRw_txt (dn : String) (r : SrcRec) (h : r.rtype = "TXT") :
    dataRw dn r = "\"" ++ r.data ++ "\"" := by
  unfold dataRw
  rw [h]
  simp

/-! When a record is dropped. -/

lemma step_emit_false_iff (dn : String) (r : SrcRec) :
    (stepRecord dn r).2 = false ↔
      dropEarly r ∨ (r.rtype = "SRV" ∧ (pySplit r.data).length ≠ 4) := by
  by_cases h : dropEarly r
  · rw [stepRecord_dropEarly dn r h]
    simp [h]
  · rw [stepRecord_not_dropEarly dn r h]
    by_cases hs : r.rtype = "SRV"
    · rw [dataRw_srv dn r hs]
      simp [h, hs]
    · simp [h, hs]

lemma step_fst_not_dropEarly (dn : String) (r : SrcRec) (h : ¬ dropEarly r) :
    (stepRecord dn r).1 = mutRec dn r := by
  rw [stepRecord_not_dropEarly dn r h]

lemma step_fst_dropEarly (dn : String) (r : SrcRec) (h : dropEarly r) :
    (stepRecord dn r).1 = r := by
  rw [stepRecord_dropEarly dn r h]

lemma emit_not_dropEarly (dn : String) (r : SrcRec)
    (h : (stepRecord dn r).2 = true) : ¬ dropEarly r := by
  intro hd
  rw [stepRecord_dropEarly dn r hd] at h
  simp at h

lemma step_name_of_emit (dn : String) (r : SrcRec)
    (h : (stepRecord dn r).2 = true) :
    (stepRecord dn r).1.name = if r.name = "@" then dn else r.name ++ "." ++ dn := by
  rw [step_fst_not_dropEarly dn r (emit_not_dropEarly dn r h)]
  rfl

/-! The aggregation dictionary: how (Name, Type) groups evolve. -/

lemma keyFilter_nil (nm ty : String) : keyFilter [] nm ty = [] := rfl

lemma keyFilter_cons (e : Entry) (rest : List Entry) (nm ty : String) :
    keyFilter (e :: rest) nm ty =
      if e.eName = nm ∧ e.eType = ty then e :: keyFilter rest nm ty
      else keyFilter rest nm ty := by
  unfold keyFilter
  rw [List.filter_cons]
  by_cases h : e.eName = nm ∧ e.eType = ty
  · rw [if_pos (decide_eq_true h), if_pos h]
  · rw [if_neg (by simpa using h), if_neg h]

lemma keyFilter_cons_length_le (e : Entry) (rest : List Entry) (nm ty : String) :
    (keyFilter rest nm ty).length ≤ (keyFilter (e :: rest) nm ty).length := by
  rw [keyFilter_cons]
  split
  · simp
  · exact le_rfl

lemma keyed_cons (r : SrcRec) (rest : List SrcRec) (nm ty : String) :
    keyed (r :: rest) nm ty =
      if r.name = nm ∧ r.rtype = ty then r :: keyed rest nm ty
      else keyed rest nm ty := by
  unfold keyed
  rw [List.filter_cons]
  by_cases h : r.name = nm ∧ r.rtype = ty
  · rw [if_pos (decide_eq_true h), if_pos h]
  · rw [if_neg (by simpa using h), if_neg h]

lemma insert_keyFilter (acc : List Entry) (r : SrcRec) (nm ty : String)
    (hinv : ∀ nm' ty', (keyFilter acc nm' ty').length ≤ 1) :
    keyFilter (insertRec acc r) nm ty =
      if r.name = nm ∧ r.rtype = ty then
        (match keyFilter acc nm ty with
         | [] => [⟨r.name, r.rtype, r.ttl, [r.data]⟩]
         | e :: _ => [{ e with eValues := e.eValues ++ [r.data] }])
      else keyFilter acc nm ty := by
  induction acc with
  | nil =>
    simp only [insertRec]
    rw [keyFilter_cons, keyFilter_nil]
  | cons e rest ih =>
    have hinv' : ∀ nm' ty', (keyFilter rest nm' ty').length ≤ 1 :=
      fun nm' ty' => le_trans (keyFilter_cons_length_le e rest nm' ty') (hinv nm' ty')
    simp only [insertRec]
    by_cases hm : e.eName = r.name ∧ e.eType = r.rtype
    · rw [if_pos hm]
      by_cases hkey : r.name = nm ∧ r.rtype = ty
      · have he : e.eName = nm ∧ e.eType = ty :=
          ⟨hm.1.trans hkey.1, hm.2.trans hkey.2⟩
        have hrest : keyFilter rest nm ty = [] := by
          have h1 := hinv nm ty
          rw [keyFilter_cons, if_pos he] at h1
          simp only [List.length_cons] at h1
          exact List.length_eq_zero.mp (by omega)
        rw [keyFilter_cons, if_pos he, hrest, if_pos hkey, keyFilter_cons, if_pos he, hrest]
      · have he : ¬ (e.eName = nm ∧ e.eType = ty) :=
          fun hc => hkey ⟨hm.1.symm.trans hc.1, hm.2.symm.trans hc.2⟩
        rw [keyFilter_cons, if_neg he, if_neg hkey, keyFilter_cons, if_neg he]
    · rw [if_neg hm]
      by_cases hkey : r.name = nm ∧ r.rtype = ty
      · have he : ¬ (e.eName = nm ∧ e.eType = ty) :=
          fun hc => hm ⟨hc.1.trans hkey.1.symm, hc.2.trans hkey.2.symm⟩
        rw [keyFilter_cons, if_neg he, ih hinv', if_pos hkey, if_pos hkey, keyFilter_cons, if_neg he]
      · rw [keyFilter_cons, ih hinv', if_neg hkey, if_neg hkey, keyFilter_cons]

lemma insert_inv (acc : List Entry) (r : SrcRec)
    (hinv : ∀ nm' ty', (keyFilter acc nm' ty').length ≤ 1) :
    ∀ nm ty, (keyFilter (insertRec acc r) nm ty).length ≤ 1 := by
  intro nm ty
  rw [insert_keyFilter acc r nm ty hinv]
  by_cases hkey : r.name = nm ∧ r.rtype = ty
  · rw [if_pos hkey]
    cases hacc : keyFilter acc nm ty <;> simp
  · rw [if_neg hkey]
    exact hinv nm ty

lemma foldl_keyFilter (nm ty : String) :
    ∀ (l : List SrcRec) (acc : List Entry),
    (∀ nm' ty', (keyFilter acc nm' ty').length ≤ 1) →
    keyFilter (List.foldl insertRec acc l) nm ty =
      (match keyFilter acc nm ty with
       | e :: _ => [{ e with eValues := e.eValues ++ (keyed l nm ty).map SrcRec.data }]
       | [] =>
         match keyed l nm ty with
         | [] => []
         | s :: _ => [⟨nm, ty, s.ttl, (keyed l nm ty).map SrcRec.data⟩]) := by
  intro l
  induction l with
  | nil =>
    intro acc hinv
    cases hacc : keyFilter acc nm ty with
    | nil =>
      simp only [List.foldl_nil]
      rw [hacc]
      simp [keyed]
    | cons e tl =>
      have htl : tl = [] := by
        have h1 := hinv nm ty
        rw [hacc] at h1
        simp only [List.length_cons] at h1
        exact List.length_eq_zero.mp (by omega)
      subst htl
      simp only [List.foldl_nil]
      rw [hacc]
      simp [keyed]
  | cons r t ih =>
    intro acc hinv
    rw [List.foldl_cons, ih (insertRec acc r) (insert_inv acc r hinv),
        insert_keyFilter acc r nm ty hinv]
    by_cases hkey : r.name = nm ∧ r.rtype = ty
    · rw [if_pos hkey, keyed_cons, if_pos hkey]
      cases hacc : keyFilter acc nm ty with
      | nil => simp [hkey.1, hkey.2]
      | cons e tl => simp
    · rw [if_neg hkey, keyed_cons, if_neg hkey]

lemma aggregate_keyFilter (l : List SrcRec) (nm ty : String) :
    keyFilter (aggregate l) nm ty =
      (match keyed l nm ty with
       | [] => []
       | s :: _ => [⟨nm, ty, s.ttl, (keyed l nm ty).map SrcRec.data⟩]) := by
  unfold aggregate
  rw [foldl_keyFilter nm ty l [] (by intro nm' ty'; rw [keyFilter_nil]; simp),
      keyFilter_nil]

lemma totalValues_insert (acc : List Entry) (r : SrcRec) :
    totalValues (insertRec acc r) = totalValues acc + 1 := by
  induction acc with
  | nil => simp [insertRec, totalValues]
  | cons e rest ih =>
    simp only [insertRec]
    by_cases hm : e.eName = r.name ∧ e.eType = r.rtype
    · rw [if_pos hm]
      simp [totalValues]
      omega
    · rw [if_neg hm]
      simp only [totalValues, List.map_cons, List.sum_cons] at ih ⊢
      omega

lemma totalValues_foldl :
    ∀ (l : List SrcRec) (acc : List Entry),
    totalValues (List.foldl insertRec acc l) = totalValues acc + l.length := by
  intro l
  induction l with
  | nil => intro acc; simp
  | cons r t ih =>
    intro acc
    rw [List.foldl_cons, ih (insertRec acc r), totalValues_insert]
    simp only [List.length_cons]
    omega

lemma totalValues_aggregate (l : List SrcRec) :
    totalValues (aggregate l) = l.length := by
  unfold aggregate
  rw [totalValues_foldl l []]
  have h0 : totalValues [] = 0 := rfl
  omega

lemma foldl_head_key :
    ∀ (l : List SrcRec) (e : Entry) (rest : List Entry),
    ∃ e2 rest2, List.foldl insertRec (e :: rest) l = e2 :: rest2 ∧
      e2.eName = e.eName ∧ e2.eType = e.eType := by
  intro l
  induction l with
  | nil => intro e rest; exact ⟨e, rest, rfl, rfl, rfl⟩
  | cons r t ih =>
    intro e rest
    rw [List.foldl_cons]
    simp only [insertRec]
    by_cases hm : e.eName = r.name ∧ e.eType = r.rtype
    · rw [if_pos hm]
      obtain ⟨e2, rest2, heq, hn, ht⟩ := ih { e with eValues := e.eValues ++ [r.data] } rest
      exact ⟨e2, rest2, heq, hn, ht⟩
    · rw [if_neg hm]
      exact ih e (insertRec rest r)

lemma aggregate_head_key (r : SrcRec) (t : List SrcRec) :
    ∃ e2 rest2, aggregate (r :: t) = e2 :: rest2 ∧
      e2.eName = r.name ∧ e2.eType = r.rtype := by
  unfold aggregate
  rw [List.foldl_cons]
  simp only [insertRec]
  exact foldl_head_key t ⟨r.name, r.rtype, r.ttl, [r.data]⟩ []

lemma processRecords_fst (dn : String) (l : List SrcRec) :
    (processRecords dn l).1 = l.map (fun r => (stepRecord dn r).1) := by
  induction l with
  | nil => rfl
  | cons r t ih =>
    simp only [processRecords, List.map_cons]
    rw [ih]

lemma processRecords_snd (dn : String) (l : List SrcRec) :
    (processRecords dn l).2 =
      (l.filter (fun r => (stepRecord dn r).2)).map (fun r => (stepRecord dn r).1) := by
  induction l with
  | nil => rfl
  | cons r t ih =>
    simp only [processRecords, List.filter_cons]
    cases he : (stepRecord dn r).2 with
    | true => simp only [if_pos he, List.map_cons, ih, he, if_true]
    | false => simp only [he, ih, Bool.false_eq_true, if_false]

/-! The migration decision. -/

lemma parked_foldl (l : List SrcRec) :
    ∀ b : Bool,
      l.foldl (fun acc r => if parkedRecord r = true then true else acc) b
        = (b || l.any parkedRecord) := by
  induction l with
  | nil => intro b; simp
  | cons r t ih =>
    intro b
    rw [List.foldl_cons, ih]
    by_cases hp : parkedRecord r = true
    · rw [if_pos hp]
      simp [hp]
    · rw [if_neg hp]
      simp only [Bool.not_eq_true] at hp
      simp [hp]

lemma gd_dns_exists_of_ne_nil (recs : List SrcRec) (h : recs ≠ []) :
    gd_dns_exists recs = true := by
  unfold gd_dns_exists
  rw [decide_eq_true_eq]
  exact List.length_pos.mpr h

/-- C1: `requires_zone_migration` returns false on an empty record
list; on a non-empty list it returns true exactly when there is no
record with name `@`, type `A` and data `Parked`, or the record count
is at most 6 (so a parked list with more than 6 records yields
false). -/
theorem c1_requires_migration_rule (recs : List SrcRec) :
    (recs = [] → requires_zone_migration recs = false)
    ∧ (recs ≠ [] →
        (requires_zone_migration recs = true ↔
          ((¬ ∃ r ∈ recs, r.name = "@" ∧ r.rtype = "A" ∧ r.data = "Parked")
            ∨ recs.length ≤ 6))) := by
  constructor
  · intro h
    subst h
    rfl
  · intro hne
    simp only [requires_zone_migration]
    rw [if_neg (by simp [gd_dns_exists_of_ne_nil recs hne])]
    rw [parked_foldl recs false]
    simp only [Bool.false_or]
    by_cases hp : recs.any parkedRecord = true
    · rw [if_neg (by simp [hp])]
      have hex2 : ∃ r ∈ recs, r.name = "@" ∧ r.rtype = "A" ∧ r.data = "Parked" := by
        rw [List.any_eq_true] at hp
        obtain ⟨r, hr, hpr⟩ := hp
        exact ⟨r, hr, of_decide_eq_true hpr⟩
      constructor
      · intro ht
        right
        by_contra h6
        rw [if_neg h6] at ht
        simp at ht
      · intro hor
        rcases hor with h | h
        · exact absurd hex2 h
        · rw [if_pos h]
    · rw [if_pos (by simpa using hp)]
      constructor
      · intro _
        left
        rintro ⟨r, hr, h1, h2, h3⟩
        apply hp
        rw [List.any_eq_true]
        exact ⟨r, hr, decide_eq_true ⟨h1, h2, h3⟩⟩
      · intro _
        rfl

/-- Witness for C1: a 7-record list whose apex A record is `Parked`
is not migrated. -/
theorem c1_witness :
    requires_zone_migration
      [⟨"@", "A", "Parked", 600, 0⟩, ⟨"a", "A", "1.1.1.1", 600, 0⟩,
       ⟨"b", "A", "1.1.1.1", 600, 0⟩, ⟨"c", "A", "1.1.1.1", 600, 0⟩,
       ⟨"d", "A", "1.1.1.1", 600, 0⟩, ⟨"e", "A", "1.1.1.1", 600, 0⟩,
       ⟨"f", "A", "1.1.1.1", 600, 0⟩] = false := by
  have h := (c1_requires_migration_rule
      [⟨"@", "A", "Parked", 600, 0⟩, ⟨"a", "A", "1.1.1.1", 600, 0⟩,
       ⟨"b", "A", "1.1.1.1", 600, 0⟩, ⟨"c", "A", "1.1.1.1", 600, 0⟩,
       ⟨"d", "A", "1.1.1.1", 600, 0⟩, ⟨"e", "A", "1.1.1.1", 600, 0⟩,
       ⟨"f", "A", "1.1.1.1", 600, 0⟩]).2 (by decide)
  cases hb : requires_zone_migration
      [⟨"@", "A", "Parked", 600, 0⟩, ⟨"a", "A", "1.1.1.1", 600, 0⟩,
       ⟨"b", "A", "1.1.1.1", 600, 0⟩, ⟨"c", "A", "1.1.1.1", 600, 0⟩,
       ⟨"d", "A", "1.1.1.1", 600, 0⟩, ⟨"e", "A", "1.1.1.1", 600, 0⟩,
       ⟨"f", "A", "1.1.1.1", 600, 0⟩] with
  | false => rfl
  | true => exact absurd (h.mp hb) (by decide)

/-- Counterexample to C8 as stated: the empty record set has at most
6 records and no parked-apex record, yet `requires_zone_migration`
returns false on it. -/
theorem c8_counterexample :
    requires_zone_migration ([] : List SrcRec) = false
    ∧ ([] : List SrcRec).length ≤ 6
    ∧ (([] : List SrcRec).all (fun r => ! parkedRecord r)) = true := by
  decide

/-- C8 (amended): every NON-EMPTY record set with at most 6 records
and no parked-apex record requires migration. -/
theorem c8_small_unparked_migrates (recs : List SrcRec) (hne : recs ≠ [])
    (hlen : recs.length ≤ 6)
    (hnp : ∀ r ∈ recs, ¬ (r.name = "@" ∧ r.rtype = "A" ∧ r.data = "Parked")) :
    requires_zone_migration recs = true := by
  simp only [requires_zone_migration]
  rw [if_neg (by simp [gd_dns_exists_of_ne_nil recs hne])]
  rw [parked_foldl recs false]
  have hany : recs.any parkedRecord = false := by
    rw [List.any_eq_false]
    intro r hr
    unfold parkedRecord
    simpa using hnp r hr
  rw [hany]
  rfl

/-- Witness for the amended C8: a single ordinary A record migrates. -/
theorem c8_witness :
    requires_zone_migration [⟨"www", "A", "1.2.3.4", 600, 0⟩] = true :=
  c8_small_unparked_migrates [⟨"www", "A", "1.2.3.4", 600, 0⟩]
    (by decide) (by decide) (by decide)

/-- C2: a surviving record named `@` gets the domain name as its
final name and any other surviving record gets `name.domain`; in the
produced change set, all surviving records sharing a (final name,
type) key collapse into exactly one entry whose value list is their
data in encounter order and whose TTL is the first such record's. -/
theorem c2_name_rewrite_and_aggregation (dn : String) (recs : List SrcRec)
    (nm ty : String) :
    (∀ r ∈ recs, (stepRecord dn r).2 = true →
      (stepRecord dn r).1.name = if r.name = "@" then dn else r.name ++ "." ++ dn)
    ∧ keyFilter (r53_create_records dn recs).2 nm ty =
        (match keyed (processRecords dn recs).2 nm ty with
         | [] => []
         | s :: _ => [⟨nm, ty, s.ttl, (keyed (processRecords dn recs).2 nm ty).map SrcRec.data⟩]) := by
  constructor
  · intro r _ he
    exact step_name_of_emit dn r he
  · exact aggregate_keyFilter (processRecords dn recs).2 nm ty

/-- Witness for C2: the spec's two-record example aggregates into one
entry with both values, and the apex-relative name is qualified. -/
theorem c2_witness :
    (stepRecord "example.com" ⟨"www", "A", "1.2.3.4", 3600, 0⟩).1.name = "www.example.com"
    ∧ keyFilter (r53_create_records "example.com"
        [⟨"www", "A", "1.2.3.4", 3600, 0⟩, ⟨"www", "A", "5.6.7.8", 3600, 0⟩]).2
        "www.example.com" "A"
      = [⟨"www.example.com", "A", 3600, ["1.2.3.4", "5.6.7.8"]⟩] := by
  have h := c2_name_rewrite_and_aggregation "example.com"
    [⟨"www", "A", "1.2.3.4", 3600, 0⟩, ⟨"www", "A", "5.6.7.8", 3600, 0⟩]
    "www.example.com" "A"
  constructor
  · have h1 := h.1 ⟨"www", "A", "1.2.3.4", 3600, 0⟩ (by decide) (by decide)
    rw [h1]
    decide
  · rw [h.2]
    decide

/-- C5: a record produces no value exactly when its type is SOA or
NS, or it is an A record with data `Parked`, or a CNAME named
`_domainconnect`, or an SRV whose data does not split into exactly 4
whitespace-separated fields; every surviving record contributes
exactly one value to the change set. -/
theorem c5_drop_rule (dn : String) (r : SrcRec) (recs : List SrcRec) :
    ((stepRecord dn r).2 = false ↔
      (r.rtype = "SOA" ∨ r.rtype = "NS"
        ∨ (r.rtype = "A" ∧ r.data = "Parked")
        ∨ (r.rtype = "CNAME" ∧ r.name = "_domainconnect")
        ∨ (r.rtype = "SRV" ∧ (pySplit r.data).length ≠ 4)))
    ∧ totalValues (r53_create_records dn recs).2
        = (recs.filter (fun x => (stepRecord dn x).2)).length := by
  constructor
  · rw [step_emit_false_iff]
    unfold dropEarly
    tauto
  · show totalValues (aggregate (processRecords dn recs).2) = _
    rw [totalValues_aggregate, processRecords_snd, List.length_map]

/-- Witness for C5: the spec's 3-field SRV record is dropped, and a
one-record list yields one value in the change set. -/
theorem c5_witness :
    (stepRecord "example.com" ⟨"_sip._tcp", "SRV", "10 20 5060", 600, 0⟩).2 = false
    ∧ totalValues (r53_create_records "example.com" [⟨"www", "A", "1.2.3.4", 600, 0⟩]).2 = 1 := by
  have h := c5_drop_rule "example.com" ⟨"_sip._tcp", "SRV", "10 20 5060", 600, 0⟩
    [⟨"www", "A", "1.2.3.4", 600, 0⟩]
  constructor
  · exact h.1.mpr (by decide)
  · rw [h.2]
    decide

/-- C6: for surviving records, a CNAME with data `@` gets the domain
name as data, an A record with data `WebsiteBuilder Site` gets the
fixed IP, an MX record's data becomes `priority data`, and a TXT
record's data is wrapped in double quotes. -/
theorem c6_data_rewrites (dn : String) (r : SrcRec)
    (he : (stepRecord dn r).2 = true) :
    (r.rtype = "CNAME" ∧ r.data = "@" → (stepRecord dn r).1.data = dn)
    ∧ (r.rtype = "A" ∧ r.data = "WebsiteBuilder Site" →
        (stepRecord dn r).1.data = websiteBuilderIP)
    ∧ (r.rtype = "MX" →
        (stepRecord dn r).1.data = toString r.priority ++ " " ++ r.data)
    ∧ (r.rtype = "TXT" →
        (stepRecord dn r).1.data = "\"" ++ r.data ++ "\"") := by
  have hnd := emit_not_dropEarly dn r he
  have h1 := step_fst_not_dropEarly dn r hnd
  refine ⟨?_, ?_, ?_, ?_⟩
  · rintro ⟨hc, hd⟩
    rw [h1]
    show dataRw dn r = dn
    rw [dataRw_cname dn r hc, if_pos hd]
  · rintro ⟨hc, hd⟩
    rw [h1]
    show dataRw dn r = websiteBuilderIP
    rw [dataRw_a dn r hc, if_pos hd]
  · intro hc
    rw [h1]
    show dataRw dn r = _
    exact dataRw_mx dn r hc
  · intro hc
    rw [h1]
    show dataRw dn r = _
    exact dataRw_txt dn r hc

/-- Witness for C6: the spec's MX and TXT examples. -/
theorem c6_witness :
    (stepRecord "example.com" ⟨"@", "MX", "mail.example.com", 3600, 10⟩).1.data
      = "10 mail.example.com"
    ∧ (stepRecord "example.com" ⟨"@", "TXT", "v=spf1 -all", 3600, 0⟩).1.data
      = "\"v=spf1 -all\"" := by
  constructor
  · have h := (c6_data_rewrites "example.com" ⟨"@", "MX", "mail.example.com", 3600, 10⟩
      (by decide)).2.2.1 rfl
    rw [h]
    decide
  · have h := (c6_data_rewrites "example.com" ⟨"@", "TXT", "v=spf1 -all", 3600, 0⟩
      (by decide)).2.2.2 rfl
    rw [h]
    decide

/-! Feeding an already-rewritten record through the loop again. -/

lemma mutRec_rtype (dn : String) (r : SrcRec) : (mutRec dn r).rtype = r.rtype := rfl

lemma mutRec_name (dn : String) (r : SrcRec) :
    (mutRec dn r).name = if r.name = "@" then dn else r.name ++ "." ++ dn := rfl

lemma mutRec_data (dn : String) (r : SrcRec) : (mutRec dn r).data = dataRw dn r := rfl

lemma mutRec_name_ne_at (dn : String) (r : SrcRec) (hdn : dn ≠ "@") :
    (mutRec dn r).name ≠ "@" := by
  rw [mutRec_name]
  by_cases h : r.name = "@"
  · rw [if_pos h]
    exact hdn
  · rw [if_neg h]
    exact str_dot_ne_at r.name dn

lemma dataRw_a_ne_parked (dn : String) (r : SrcRec) (hrt : r.rtype = "A")
    (hd : r.data ≠ "Parked") : dataRw dn r ≠ "Parked" := by
  rw [dataRw_a dn r hrt]
  by_cases h : r.data = "WebsiteBuilder Site"
  · rw [if_pos h]
    decide
  · rw [if_neg h]
    exact hd

lemma restep_dropEarly_iff (dn : String) (r : SrcRec) (hnd : ¬ dropEarly r) :
    dropEarly (mutRec dn r) ↔
      (r.rtype = "CNAME" ∧ (mutRec dn r).name = "_domainconnect") := by
  unfold dropEarly
  rw [mutRec_rtype]
  constructor
  · rintro (h | h | ⟨h1, h2⟩ | h)
    · exact absurd (Or.inl h) hnd
    · exact absurd (Or.inr (Or.inl h)) hnd
    · exfalso
      have hd : r.data ≠ "Parked" :=
        fun hc => hnd (Or.inr (Or.inr (Or.inl ⟨h1, hc⟩)))
      exact dataRw_a_ne_parked dn r h1 hd (by rw [← mutRec_data dn r]; exact h2)
    · exact h
  · intro h
    exact Or.inr (Or.inr (Or.inr h))

lemma restep_snd_of_emit (dn : String) (r : SrcRec) (hdn : dn ≠ "@")
    (he : (stepRecord dn r).2 = true) :
    ((stepRecord dn ((stepRecord dn r).1)).2 = true ↔
      ¬ (r.rtype = "CNAME" ∧ ((stepRecord dn r).1).name = "_domainconnect")) := by
  have hnd := emit_not_dropEarly dn r he
  rw [step_fst_not_dropEarly dn r hnd]
  have hiff := step_emit_false_iff dn (mutRec dn r)
  constructor
  · intro h2 hc
    have hdrop : dropEarly (mutRec dn r) :=
      (restep_dropEarly_iff dn r hnd).mpr ⟨hc.1, hc.2⟩
    have hfalse : (stepRecord dn (mutRec dn r)).2 = false := hiff.mpr (Or.inl hdrop)
    rw [hfalse] at h2
    exact absurd h2 (by decide)
  · intro hc
    cases h2 : (stepRecord dn (mutRec dn r)).2 with
    | true => rfl
    | false =>
      exfalso
      rcases hiff.mp h2 with hdrop | hsrv
      · exact hc ((restep_dropEarly_iff dn r hnd).mp hdrop)
      · have hrt : r.rtype = "SRV" := by
          rw [← mutRec_rtype dn r]
          exact hsrv.1
        have hdata : (mutRec dn r).data = r.data := by
          rw [mutRec_data, dataRw_srv dn r hrt]
        have hbad : (pySplit r.data).length ≠ 4 := by
          rw [← hdata]
          exact hsrv.2
        have hfalse : (stepRecord dn r).2 = false :=
          (step_emit_false_iff dn r).mpr (Or.inr ⟨hrt, hbad⟩)
        rw [hfalse] at he
        exact absurd he (by decide)

lemma restep_snd_of_not_emit (dn : String) (r : SrcRec)
    (he : (stepRecord dn r).2 = false) :
    (stepRecord dn ((stepRecord dn r).1)).2 = false := by
  by_cases hnd : dropEarly r
  · rw [step_fst_dropEarly dn r hnd]
    exact he
  · rw [step_fst_not_dropEarly dn r hnd]
    rcases (step_emit_false_iff dn r).mp he with hdrop | hsrv
    · exact absurd hdrop hnd
    · have hrt := hsrv.1
      have hdata : (mutRec dn r).data = r.data := by
        rw [mutRec_data, dataRw_srv dn r hrt]
      apply (step_emit_false_iff dn (mutRec dn r)).mpr
      right
      constructor
      · rw [mutRec_rtype]
        exact hrt
      · rw [hdata]
        exact hsrv.2

lemma restep_name_of_emit (dn : String) (r : SrcRec) (hdn : dn ≠ "@")
    (he : (stepRecord dn r).2 = true)
    (he2 : (stepRecord dn ((stepRecord dn r).1)).2 = true) :
    ((stepRecord dn ((stepRecord dn r).1)).1).name
      = ((stepRecord dn r).1).name ++ "." ++ dn := by
  have hnd := emit_not_dropEarly dn r he
  rw [step_fst_not_dropEarly dn r hnd] at he2 ⊢
  have hnd2 := emit_not_dropEarly dn (mutRec dn r) he2
  rw [step_fst_not_dropEarly dn (mutRec dn r) hnd2]
  rw [mutRec_name dn (mutRec dn r)]
  rw [if_neg (mutRec_name_ne_at dn r hdn)]

/-! Counting survivors through filters. -/

lemma filter_length_le_of_imp {α : Type} (l : List α) (p q : α → Bool)
    (himp : ∀ x ∈ l, p x = true → q x = true) :
    (l.filter p).length ≤ (l.filter q).length := by
  induction l with
  | nil => simp
  | cons a t ih =>
    have ih' := ih (fun x hx => himp x (List.mem_cons_of_mem a hx))
    rw [List.filter_cons, List.filter_cons]
    by_cases hp : p a = true
    · rw [if_pos hp, if_pos (himp a (List.mem_cons_self a t) hp)]
      simpa using ih'
    · rw [if_neg hp]
      by_cases hq : q a = true
      · rw [if_pos hq]
        simp only [List.length_cons]
        omega
      · rw [if_neg hq]
        exact ih'

lemma filter_length_lt_of_witness {α : Type} (l : List α) (p q : α → Bool)
    (himp : ∀ x ∈ l, p x = true → q x = true)
    (x₀ : α) (hx : x₀ ∈ l) (hq : q x₀ = true) (hp : p x₀ = false) :
    (l.filter p).length < (l.filter q).length := by
  induction l with
  | nil => cases hx
  | cons a t ih =>
    rw [List.filter_cons, List.filter_cons]
    rcases List.mem_cons.mp hx with rfl | hxt
    · rw [if_neg (by simp [hp]), if_pos hq]
      have hle := filter_length_le_of_imp t p q
        (fun x hxm => himp x (List.mem_cons_of_mem _ hxm))
      simp only [List.length_cons]
      omega
    · have ih' := ih (fun x hxm => himp x (List.mem_cons_of_mem _ hxm)) hxt
      by_cases hpa : p a = true
      · rw [if_pos hpa, if_pos (himp a (List.mem_cons_self a t) hpa)]
        simp only [List.length_cons]
        omega
      · rw [if_neg hpa]
        by_cases hqa : q a = true
        · rw [if_pos hqa]
          simp only [List.length_cons]
          omega
        · rw [if_neg hqa]
          exact ih'

/-- Counterexample to C10 as stated: for the domain name `@` (the
`Domain` constructor accepts any string) a surviving apex A record is
rewritten to itself, so the second call reproduces the first call's
change set exactly, although the record list has a surviving record. -/
theorem c10_counterexample :
    (r53_create_records "@" ((r53_create_records "@" [⟨"@", "A", "1.2.3.4", 600, 0⟩]).1)).2
      = (r53_create_records "@" [⟨"@", "A", "1.2.3.4", 600, 0⟩]).2
    ∧ (r53_create_records "@" [⟨"@", "A", "1.2.3.4", 600, 0⟩]).2 ≠ [] := by
  decide

/-- C10 (amended): the transformation mutates the cached record list
in place (afterwards it holds the rewritten records), and — for a
domain whose canonical name is not the literal `@` — a second call on
the mutated list cannot reproduce the first call's change set when at
least one record survived. -/
theorem c10_second_call_differs (dn : String) (recs : List SrcRec)
    (hdn : dn ≠ "@") (hsurv : (processRecords dn recs).2 ≠ []) :
    (r53_create_records dn recs).1 = recs.map (fun r => (stepRecord dn r).1)
    ∧ (r53_create_records dn ((r53_create_records dn recs).1)).2
        ≠ (r53_create_records dn recs).2 := by
  have hcached : (r53_create_records dn recs).1 = recs.map (fun r => (stepRecord dn r).1) :=
    processRecords_fst dn recs
  refine ⟨hcached, ?_⟩
  have hc1 : (r53_create_records dn recs).2
      = aggregate ((recs.filter (fun r => (stepRecord dn r).2)).map
          (fun r => (stepRecord dn r).1)) := by
    show aggregate (processRecords dn recs).2 = _
    rw [processRecords_snd]
  have hc2 : (r53_create_records dn (recs.map (fun r => (stepRecord dn r).1))).2
      = aggregate ((recs.filter (fun r => (stepRecord dn ((stepRecord dn r).1)).2)).map
          (fun r => (stepRecord dn ((stepRecord dn r).1)).1)) := by
    show aggregate (processRecords dn (recs.map (fun r => (stepRecord dn r).1))).2 = _
    rw [processRecords_snd, List.filter_map, List.map_map]
    rfl
  rw [hcached, hc2, hc1]
  intro heq
  by_cases hall : ∀ r ∈ recs, (stepRecord dn r).2 = true →
      (stepRecord dn ((stepRecord dn r).1)).2 = true
  · have hfeq : recs.filter (fun r => (stepRecord dn ((stepRecord dn r).1)).2)
        = recs.filter (fun r => (stepRecord dn r).2) := by
      apply List.filter_congr
      intro x hx
      cases hpx : (stepRecord dn x).2 with
      | true => exact hall x hx hpx
      | false => exact restep_snd_of_not_emit dn x hpx
    have hfne : recs.filter (fun r => (stepRecord dn r).2) ≠ [] := by
      intro h0
      apply hsurv
      rw [processRecords_snd, h0]
      rfl
    obtain ⟨r0, t0, hflt⟩ := List.exists_cons_of_ne_nil hfne
    have hr0mem : r0 ∈ recs.filter (fun r => (stepRecord dn r).2) := by
      rw [hflt]
      exact List.mem_cons_self r0 t0
    have hr0 := List.mem_filter.mp hr0mem
    have hp2r0 : (stepRecord dn ((stepRecord dn r0).1)).2 = true :=
      hall r0 hr0.1 (by simpa using hr0.2)
    rw [hfeq, hflt] at heq
    simp only [List.map_cons] at heq
    obtain ⟨e1, rest1, hagg1, hname1, hty1⟩ :=
      aggregate_head_key ((stepRecord dn r0).1)
        (t0.map (fun r => (stepRecord dn r).1))
    obtain ⟨e2, rest2, hagg2, hname2, hty2⟩ :=
      aggregate_head_key ((stepRecord dn ((stepRecord dn r0).1)).1)
        (t0.map (fun r => (stepRecord dn ((stepRecord dn r).1)).1))
    rw [hagg1, hagg2] at heq
    injection heq with hhead _
    have hnames : ((stepRecord dn ((stepRecord dn r0).1)).1).name
        = ((stepRecord dn r0).1).name := by
      calc ((stepRecord dn ((stepRecord dn r0).1)).1).name
          = e2.eName := hname2.symm
        _ = e1.eName := by rw [hhead]
        _ = ((stepRecord dn r0).1).name := hname1
    have hgrow := restep_name_of_emit dn r0 hdn (by simpa using hr0.2) hp2r0
    rw [hgrow] at hnames
    exact str_ne_self_dot ((stepRecord dn r0).1).name dn hnames.symm
  · push_neg at hall
    obtain ⟨x0, hx0mem, hx0p, hx0p2⟩ := hall
    have hx0p2f : (stepRecord dn ((stepRecord dn x0).1)).2 = false := by
      cases h : (stepRecord dn ((stepRecord dn x0).1)).2 with
      | false => rfl
      | true => exact absurd h hx0p2
    have himp : ∀ x ∈ recs, (stepRecord dn ((stepRecord dn x).1)).2 = true →
        (stepRecord dn x).2 = true := by
      intro x _ h2
      cases hpx : (stepRecord dn x).2 with
      | true => rfl
      | false =>
        rw [restep_snd_of_not_emit dn x hpx] at h2
        exact absurd h2 (by decide)
    have hlt := filter_length_lt_of_witness recs
      (fun r => (stepRecord dn ((stepRecord dn r).1)).2)
      (fun r => (stepRecord dn r).2)
      himp x0 hx0mem hx0p hx0p2f
    have htv1 := congrArg totalValues heq
    rw [totalValues_aggregate, totalValues_aggregate,
        List.length_map, List.length_map] at htv1
    omega

/-- Witness for the amended C10: one ordinary record for
`example.com` is rewritten in the cache and the second call differs. -/
theorem c10_witness :
    (r53_create_records "example.com" [⟨"www", "A", "1.2.3.4", 600, 0⟩]).1
      = [⟨"www.example.com", "A", "1.2.3.4", 600, 0⟩]
    ∧ (r53_create_records "example.com"
        ((r53_create_records "example.com" [⟨"www", "A", "1.2.3.4", 600, 0⟩]).1)).2
      ≠ (r53_create_records "example.com" [⟨"www", "A", "1.2.3.4", 600, 0⟩]).2 := by
  have h := c10_second_call_differs "example.com" [⟨"www", "A", "1.2.3.4", 600, 0⟩]
    (by decide) (by decide)
  refine ⟨?_, h.2⟩
  rw [h.1]
  decide

/-- Counterexample to C3 as stated: in a two-domain batch whose first
domain's record-apply call raises, only the first domain is attempted
and no output rows are produced at all (the exception escapes the
loop before `to_csv`). -/
theorem c3_counterexample :
    runBatch [⟨"a.com", [⟨"www", "A", "1.2.3.4", 600, 0⟩], true⟩,
              ⟨"b.com", [⟨"www", "A", "5.6.7.8", 600, 0⟩], false⟩]
      = (["a.com"], none)
    ∧ ([⟨"a.com", [⟨"www", "A", "1.2.3.4", 600, 0⟩], true⟩,
        ⟨"b.com", [⟨"www", "A", "5.6.7.8", 600, 0⟩], false⟩] : List DomIn).length = 2 := by
  decide

/-- C3 (amended): a run whose domains all succeed yields one row per
domain; a raising record-apply call aborts the whole remaining run —
the failing domain is the last one attempted and no rows at all are
written. -/
theorem c3_abort_behavior :
    (∀ ds : List DomIn,
      (∀ d ∈ ds, ∃ row, processDomain d = Except.ok row) →
      ∃ rows, runBatch ds = (ds.map DomIn.name, some rows) ∧ rows.length = ds.length)
    ∧ (∀ (pre : List DomIn) (bad : DomIn) (post : List DomIn),
        (∀ d ∈ pre, ∃ row, processDomain d = Except.ok row) →
        (∃ e, processDomain bad = Except.error e) →
        runBatch (pre ++ bad :: post) = (pre.map DomIn.name ++ [bad.name], none)) := by
  constructor
  · intro ds
    induction ds with
    | nil => exact fun _ => ⟨[], rfl, rfl⟩
    | cons d rest ih =>
      intro hall
      obtain ⟨row, hrow⟩ := hall d (List.mem_cons_self d rest)
      obtain ⟨rows, hrows, hlen⟩ := ih (fun x hx => hall x (List.mem_cons_of_mem d hx))
      refine ⟨row :: rows, ?_, by simp [hlen]⟩
      simp only [runBatch, hrow, hrows, List.map_cons]
      rfl
  · intro pre bad post hpre hbad
    induction pre with
    | nil =>
      obtain ⟨e, he⟩ := hbad
      simp only [List.nil_append, runBatch, he, List.map_nil]
    | cons d rest ih =>
      obtain ⟨row, hrow⟩ := hpre d (List.mem_cons_self d rest)
      have ih' := ih (fun x hx => hpre x (List.mem_cons_of_mem d hx))
      simp only [List.cons_append, runBatch, hrow, List.append_eq, ih', List.map_cons]
      rfl

/-- Witness for the amended C3: one good domain, then a failing one,
then one more — the run stops at the failing domain with no rows. -/
theorem c3_witness :
    runBatch [⟨"good.com", [⟨"www", "A", "1.2.3.4", 600, 0⟩], false⟩,
              ⟨"bad.com", [⟨"www", "A", "1.2.3.4", 600, 0⟩], true⟩,
              ⟨"later.com", [⟨"www", "A", "1.2.3.4", 600, 0⟩], false⟩]
      = (["good.com", "bad.com"], none) := by
  have h := c3_abort_behavior.2
    [⟨"good.com", [⟨"www", "A", "1.2.3.4", 600, 0⟩], false⟩]
    ⟨"bad.com", [⟨"www", "A", "1.2.3.4", 600, 0⟩], true⟩
    [⟨"later.com", [⟨"www", "A", "1.2.3.4", 600, 0⟩], false⟩]
    (by
      intro d hd
      simp only [List.mem_singleton] at hd
      subst hd
      exact ⟨⟨"Yes", "Yes", "Yes", "No"⟩, rfl⟩)
    ⟨"bad.com", rfl⟩
  simpa using h

/-- Counterexample to C4 as stated: with a 1000 ms minimum interval,
a first call arriving 2000 ms after construction leaves the stored
last-call time untouched, so two further back-to-back calls are not
delayed at all: the three calls start at 2000, 2000, 2000 — neither
1000 ms apart nor spanning (N-1)*1000 ms. -/
theorem c4_counterexample :
    runCalls 1000 0 0 [2000, 0, 0] = [2000, 2000, 2000] := by
  decide

lemma runCalls_zero_delays (w : Nat) (hw : 0 < w) :
    ∀ (n : Nat) (s : Nat),
      runCalls w s s (List.replicate n 0)
        = (List.range n).map (fun i => s + (i + 1) * w) := by
  intro n
  induction n with
  | zero => intro s; rfl
  | succ n ih =>
    intro s
    show runCalls w s s (0 :: List.replicate n 0) = _
    simp only [runCalls]
    have hwc : wait_until w s (s + 0) = (s + w, s + w) := by
      unfold wait_until
      have h0 : s + 0 - s = 0 := by omega
      rw [h0, if_pos hw]
      have h1 : s + 0 + (w - 0) = s + w := by omega
      simp only [h1]
    rw [hwc, ih (s + w), List.range_succ_eq_map, List.map_cons, List.map_map]
    have hfun : ((fun i => s + (i + 1) * w) ∘ Nat.succ) = (fun i => (s + w) + (i + 1) * w) := by
      funext i
      simp only [Function.comp, Nat.succ_eq_add_one]
      ring
    rw [hfun]
    have hh : s + (0 + 1) * w = s + w := by omega
    rw [hh]

/-- C4 (amended): a call arriving within the minimum interval of the
stored last-call time starts exactly at stored-last + interval and
updates the stored time; a call arriving at or after that bound is
not delayed and leaves the stored time unchanged.  Hence when the
first call arrives within the interval of construction and all later
calls follow back-to-back, the i-th call starts at t0 + (i+1)*w, so N
calls span exactly (N-1)*w. -/
theorem c4_throttle_behavior (w t0 d0 n : Nat) (hw : 0 < w) (hd : d0 < w) :
    runCalls w t0 t0 (d0 :: List.replicate n 0)
      = (List.range (n + 1)).map (fun i => t0 + (i + 1) * w) := by
  simp only [runCalls]
  have hwc : wait_until w t0 (t0 + d0) = (t0 + w, t0 + w) := by
    unfold wait_until
    have h0 : t0 + d0 - t0 = d0 := by omega
    rw [h0, if_pos hd]
    have h1 : t0 + d0 + (w - d0) = t0 + w := by omega
    simp only [h1]
  rw [hwc, runCalls_zero_delays w hw n (t0 + w),
      List.range_succ_eq_map, List.map_cons, List.map_map]
  have hfun : ((fun i => t0 + (i + 1) * w) ∘ Nat.succ) = (fun i => (t0 + w) + (i + 1) * w) := by
    funext i
    simp only [Function.comp, Nat.succ_eq_add_one]
    ring
  rw [hfun]
  have hh : t0 + (0 + 1) * w = t0 + w := by omega
  rw [hh]

/-- Witness for the amended C4: construction at 0, first call at 500,
two immediate follow-ups, 1000 ms interval: starts at 1000, 2000,
3000. -/
theorem c4_witness :
    runCalls 1000 0 0 (500 :: List.replicate 2 0) = [1000, 2000, 3000] := by
  rw [c4_throttle_behavior 1000 0 500 2 (by decide) (by decide)]
  decide

/-- Counterexample to C7 as stated: when the first fetch returns an
empty list, the cache test `not self._records` stays truthy, so the
second read calls the backend again (call counter 1 then 2) and can
even return a different value. -/
theorem c7_counterexample :
    records_read
      (fun n => if n = 0 then Except.ok [] else Except.ok [⟨"www", "A", "1.2.3.4", 600, 0⟩])
      none 0 = ([], some [], 1)
    ∧ records_read
      (fun n => if n = 0 then Except.ok [] else Except.ok [⟨"www", "A", "1.2.3.4", 600, 0⟩])
      (some []) 1
      = ([⟨"www", "A", "1.2.3.4", 600, 0⟩], some [⟨"www", "A", "1.2.3.4", 600, 0⟩], 2) := by
  decide

/-- C7 (amended): a `BadResponse` from the backend yields the empty
list (no error) and is stored; once a read has produced a NON-EMPTY
list, every later read returns that cached list without touching the
backend; an empty cached result is fetched again on the next read. -/
theorem c7_cache_behavior (fetch : Nat → Except Unit (List SrcRec))
    (st : Option (List SrcRec)) (calls : Nat) :
    (pyFalsy st = true → ∀ e : Unit, fetch calls = Except.error e →
      records_read fetch st calls = ([], some [], calls + 1))
    ∧ (∀ l : List SrcRec, l ≠ [] →
        records_read fetch (some l) calls = (l, some l, calls)) := by
  constructor
  · intro hf e he
    unfold records_read
    rw [if_pos hf, he]
  · intro l hl
    unfold records_read
    have hf : pyFalsy (some l) = false := by
      cases l with
      | nil => exact absurd rfl hl
      | cons a t => rfl
    rw [if_neg (by simp [hf])]
    rfl

/-- Witness for the amended C7: a bad response stores and returns the
empty list with one backend call; a non-empty cache is returned as is
with no backend call. -/
theorem c7_witness :
    records_read (fun _ => Except.error ()) none 5 = ([], some [], 6)
    ∧ records_read (fun _ => Except.error ())
        (some [⟨"www", "A", "1.2.3.4", 600, 0⟩]) 7
      = ([⟨"www", "A", "1.2.3.4", 600, 0⟩], some [⟨"www", "A", "1.2.3.4", 600, 0⟩], 7) := by
  constructor
  · exact (c7_cache_behavior (fun _ => Except.error ()) none 5).1 rfl () rfl
  · exact (c7_cache_behavior (fun _ => Except.error ())
      (some [⟨"www", "A", "1.2.3.4", 600, 0⟩]) 7).2
      [⟨"www", "A", "1.2.3.4", 600, 0⟩] (by decide)

/-- C9: the zone lookup matches only on the exact name with a
trailing dot (third conjunct: a prefix-named zone listed first is
skipped), and an `InvalidInput` error from the backend is caught
(second conjunct) — but at the failing input where the backend
rejects the malformed name with `InvalidDomainName` (the exception
named second in the dead `except A or B` expression of line 113), the
error propagates instead of yielding "absent". -/
theorem c9_lookup_behavior :
    r53_zone_id "bad..name" none (Except.error R53LookupError.invalidDomainName)
      = Except.error R53LookupError.invalidDomainName
    ∧ r53_zone_id "bad..name" none (Except.error R53LookupError.invalidInput)
      = Except.ok none
    ∧ r53_zone_id "example.com" none
        (Except.ok [⟨"example.common.", "Z1"⟩, ⟨"example.com.", "Z2"⟩])
      = Except.ok (some "Z2") :=
  ⟨rfl, rfl, rfl⟩
